import Mathlib

/-!
Verification of the duplicate-image-detection core of the
DiscordDuplicateImageDetector repository (four variants:
`discord_duplicate_bot.py` (v1), `_v2.py`, `_v3.py`, `_v4.py`).

Shallow embedding conventions:
* a perceptual fingerprint (an `imagehash` value) is a list of bits;
  `imagehash` subtraction (Hamming distance) raises on shape mismatch,
  which we model by returning `none` for lists of different lengths;
* a stored hash string either decodes via `hex_to_hash` (constructor
  `HStr.valid` carrying the decoded bits) or raises `ValueError`
  (`HStr.invalid`);
* a stored timestamp string either parses via `dateutil.parser.isoparse`
  to a UTC instant, modelled as integer seconds (`TStamp.valid`), or
  raises (`TStamp.invalid`);
* Python's `timedelta.days` is floor division of the difference in
  seconds by 86400 (`Int.fdiv`);
* a JSON hash-database value is either a legacy bare hash string, a
  structured record (dict with optional `hash`, `user_id`, `timestamp`
  fields), or a nested per-channel mapping; Python dicts are ordered, so
  the store is an association list, `d[k] = v` updates in place or
  appends, and `pop` removes the unique entry with that key.
-/

namespace DupDetect

/-- A decoded perceptual fingerprint: a fixed-length bit string. -/
abbrev Fingerprint := List Bool

/-- Hamming distance between two fingerprints, as computed by
`imagehash.ImageHash.__sub__` (`count_nonzero(a.hash != b.hash)`); numpy
raises on shape mismatch, modelled by `none` for unequal lengths. -/
def hamming : Fingerprint → Fingerprint → Option Nat
  | [], [] => some 0
  | a :: as, b :: bs => (hamming as bs).map (fun d => (if a = b then 0 else 1) + d)
  | _, _ => none

/-- A stored hash string: `hex_to_hash` either decodes it or raises
`ValueError` (caught and skipped by every caller). -/
inductive HStr where
  | valid (bits : Fingerprint)
  | invalid
deriving DecidableEq

/-- A stored timestamp string: `dateutil.parser.isoparse` either parses
it to a UTC instant (integer seconds) or raises (caught by callers). -/
inductive TStamp where
  | valid (t : Int)
  | invalid
deriving DecidableEq

/-- One value of the hash database mapping: a legacy bare hex string, a
structured record (dict with `hash` / `user_id` / `timestamp`, each
possibly absent), or a nested channel sub-mapping (channel scope). -/
inductive HashData where
  | str (h : HStr)
  | obj (hash : Option HStr) (userId : Option Int) (timestamp : Option TStamp)
  | map (entries : List (String × HashData))

/-- A hash database document: an ordered mapping from identifier (or
channel id) to value. -/
abbrev Store := List (String × HashData)

/-- Python `d[k] = v` on an ordered dict: update in place if the key is
present, otherwise append. -/
def upsert (l : Store) (k : String) (v : HashData) : Store :=
  if l.any (fun p => p.1 = k) then
    l.map (fun p => if p.1 = k then (k, v) else p)
  else l ++ [(k, v)]

/-- Python `d.pop(k, None)`: drop the entry with key `k` (keys of a dict
are unique, so at most one entry is dropped). -/
def popKey (l : Store) (k : String) : Store :=
  l.filter (fun p => p.1 ≠ k)

/-- Python `d.get(k)` on an ordered mapping. -/
def lookupA (l : Store) (k : String) : Option HashData :=
  (l.find? (fun p => p.1 = k)).map Prod.snd

/-- Candidate-pool selection shared by `find_existing_hash_entry_sync`
and `find_duplicates_sync` in every variant: the whole store for server
scope, the channel's sub-mapping for channel scope (empty when the
channel key is absent or its value is not a mapping), and empty for any
other scope string. -/
def selectPool (store : Store) (scope : String) (channelId : String) : Store :=
  if scope = "server" then store
  else if scope = "channel" then
    match lookupA store channelId with
    | some (HashData.map m) => m
    | _ => []
  else []

/-- Hash-string extraction in `find_existing_hash_entry_sync`: a dict is
used only when it has a `hash` field, a bare string is the hash itself,
anything else is skipped. -/
def hashStrOfData : HashData → Option HStr
  | HashData.obj (some h) _ _ => some h
  | HashData.str h => some h
  | _ => none

/-- Predicate of the `find_existing_hash_entry_sync` loop: the stored
hash string decodes and its distance to the target is within the
threshold (decode failures and shape mismatches are skipped). -/
def existingPred (target : Fingerprint) (threshold : Nat) (p : String × HashData) : Bool :=
  match hashStrOfData p.2 with
  | some (HStr.valid h) =>
    match hamming target h with
    | some d => d ≤ threshold
    | none => false
  | _ => false

/-- `find_existing_hash_entry_sync(target_hash, stored, threshold, scope,
channel_id_str)` of v2/v3/v4 (identical in the three variants): first
entry of the scoped pool within the threshold, else nothing; `None`
target and unrecognized scope yield nothing. -/
def findExisting (target : Option Fingerprint) (store : Store) (threshold : Nat)
    (scope : String) (channelId : String) : Option (String × HashData) :=
  match target with
  | none => none
  | some fp => (selectPool store scope channelId).find? (existingPred fp threshold)

/-- A candidate match as built by `find_duplicates_sync`:
`{'identifier', 'distance', 'original_message_id', 'original_user_id'}`. -/
structure Match where
  identifier : String
  distance : Nat
  origMsgId : Option Int
  origUserId : Option Int
deriving DecidableEq

/-- `identifier.split('-')[0]`: the characters before the first dash. -/
def takeUntilDash : List Char → List Char
  | [] => []
  | c :: t => if c = '-' then [] else c :: takeUntilDash t

/-- Decimal value of a digit string, `none` on a non-digit (`int(...)`
raising `ValueError`). -/
def digitsValAux : List Char → Nat → Option Nat
  | [], acc => some acc
  | c :: t, acc =>
    if '0' ≤ c ∧ c ≤ '9' then digitsValAux t (acc * 10 + (c.toNat - '0'.toNat)) else none

/-- `int(identifier.split('-')[0])`, with the `except` fallback to
`None` when the prefix is empty or not a decimal number. -/
def parseMsgId (s : String) : Option Int :=
  match takeUntilDash s.data with
  | [] => none
  | l => (digitsValAux l 0).map Int.ofNat

/-- Stable insertion of a match into a distance-sorted list, placing it
after all earlier matches of equal distance (together with `sortMatches`
this reproduces the stable ascending `list.sort` of Python). -/
def insertMatch (m : Match) : List Match → List Match
  | [] => [m]
  | b :: t => if b.distance ≤ m.distance then b :: insertMatch m t else m :: b :: t

/-- Python `duplicates.sort(key=lambda x: x['distance'])`: stable sort
ascending by distance. -/
def sortMatches (l : List Match) : List Match :=
  l.foldl (fun acc m => insertMatch m acc) []

/-- Distance computation and threshold test shared by the per-record body
of `find_duplicates_sync` in all variants: decode the stored hash string,
compare, keep when `distance <= threshold`; decode failures and
comparison exceptions skip the record. -/
def matchOfRecord (fp : Fingerprint) (threshold : Nat) (identifier : String)
    (h : Option HStr) (userId : Option Int) : Option Match :=
  match h with
  | some (HStr.valid bits) =>
    match hamming fp bits with
    | some d =>
      if d ≤ threshold then some ⟨identifier, d, parseMsgId identifier, userId⟩ else none
    | none => none
  | _ => none

/-- Per-record step of v1's `find_duplicates_sync` (no retention window
parameter): extract hash string and user id from either format, then
compare. -/
def dupStepV1 (fp : Fingerprint) (threshold : Nat) (p : String × HashData) : Option Match :=
  match p.2 with
  | HashData.obj (some h) u _ => matchOfRecord fp threshold p.1 (some h) u
  | HashData.obj none _ _ => none
  | HashData.str h => matchOfRecord fp threshold p.1 (some h) none
  | HashData.map _ => none

/-- Per-record step of v2's `find_duplicates_sync`: when a window is
configured and the record has a timestamp, skip it if
`(now - stored_time).days > check_duration_days`; a record with no
timestamp (legacy string or dict without the field) is not window
checked, and a timestamp parse failure falls through to the comparison
(`except: pass`). -/
def dupStepV2 (fp : Fingerprint) (threshold : Nat) (durationDays : Int) (now : Int)
    (p : String × HashData) : Option Match :=
  match p.2 with
  | HashData.obj h u t =>
    if durationDays > 0 then
      match t with
      | some (TStamp.valid ts) =>
        if (now - ts).fdiv 86400 > durationDays then none
        else matchOfRecord fp threshold p.1 h u
      | _ => matchOfRecord fp threshold p.1 h u
    else matchOfRecord fp threshold p.1 h u
  | HashData.str h => matchOfRecord fp threshold p.1 (some h) none
  | HashData.map _ => none

/-- Per-record step of v3's `find_duplicates_sync` (v4's is identical):
a legacy bare-string record is skipped outright when a window is
configured (`if check_duration_days > 0: continue`); a dict record with
a timestamp is skipped when `stored_time < now - duration` or when the
timestamp fails to parse (`except: continue`); a dict record without a
timestamp is not window checked. -/
def dupStepV3 (fp : Fingerprint) (threshold : Nat) (durationDays : Int) (now : Int)
    (p : String × HashData) : Option Match :=
  match p.2 with
  | HashData.obj h u t =>
    if durationDays > 0 then
      match t with
      | some (TStamp.valid ts) =>
        if ts < now - durationDays * 86400 then none
        else matchOfRecord fp threshold p.1 h u
      | some TStamp.invalid => none
      | none => matchOfRecord fp threshold p.1 h u
    else matchOfRecord fp threshold p.1 h u
  | HashData.str h =>
    if durationDays > 0 then none
    else matchOfRecord fp threshold p.1 (some h) none
  | HashData.map _ => none

/-- v1 `find_duplicates_sync(new_image_hash, stored, threshold, scope,
channel_id_str)`: scoped pool, per-record comparison, stable ascending
sort by distance. -/
def findDuplicatesV1 (fp : Option Fingerprint) (store : Store) (threshold : Nat)
    (scope : String) (channelId : String) : List Match :=
  match fp with
  | none => []
  | some f => sortMatches ((selectPool store scope channelId).filterMap (dupStepV1 f threshold))

/-- v2 `find_duplicates_sync(...)` with its retention-window handling. -/
def findDuplicatesV2 (fp : Option Fingerprint) (store : Store) (threshold : Nat)
    (scope : String) (channelId : String) (durationDays : Int) (now : Int) : List Match :=
  match fp with
  | none => []
  | some f =>
    sortMatches ((selectPool store scope channelId).filterMap (dupStepV2 f threshold durationDays now))

/-- v3 `find_duplicates_sync(...)`; v4's function is line-for-line the
same logic, so it shares this definition. -/
def findDuplicatesV3 (fp : Option Fingerprint) (store : Store) (threshold : Nat)
    (scope : String) (channelId : String) (durationDays : Int) (now : Int) : List Match :=
  match fp with
  | none => []
  | some f =>
    sortMatches ((selectPool store scope channelId).filterMap (dupStepV3 f threshold durationDays now))

/-- v4 `find_duplicates_sync` is identical to v3's. -/
abbrev findDuplicatesV4 := findDuplicatesV3

/-- The decision engine of `on_message` (identical branching in all four
variants): no match leaves `is_violation = False`; strict mode takes
`matches[0]`; owner_allowed mode takes the first match whose stored
author is `None` or differs from the current poster; any other mode
string falls through with no violation. Returns the violating match, or
`none` for the UNIQUE outcome. -/
def decideViolation (dupMatches : List Match) (mode : String) (userId : Int) : Option Match :=
  match dupMatches with
  | [] => none
  | m :: _ =>
    if mode = "strict" then some m
    else if mode = "owner_allowed" then
      dupMatches.find? (fun mt => mt.origUserId.isNone || !(mt.origUserId == some userId))
    else none

/-- The channel sub-mapping obtained by `setdefault(channel_id_str, {})`
followed by the `isinstance` re-check: the existing sub-mapping when the
key holds one, otherwise a fresh empty mapping. (A structured record
stored under a channel key — a layout the code never produces — is
treated as a non-mapping and replaced.) -/
def subMap (store : Store) (channelId : String) : Store :=
  match lookupA store channelId with
  | some (HashData.map m) => m
  | _ => []

/-- Store write common to the live `on_message` insert and the scan
reconciliation update: optionally `pop` a superseded key (only when it
differs from the new identifier, as guarded in the source), then assign
`store[identifier] = data` in the scope's partition. Any scope other
than server/channel writes nothing (the source has no branch for it). -/
def storePut (store : Store) (scope : String) (channelId : String)
    (popId : Option String) (ident : String) (data : HashData) : Store :=
  if scope = "server" then
    let base :=
      match popId with
      | some exId => if exId ≠ ident then popKey store exId else store
      | none => store
    upsert base ident data
  else if scope = "channel" then
    let sub := subMap store channelId
    let base :=
      match popId with
      | some exId => if exId ≠ ident then popKey sub exId else sub
      | none => sub
    upsert store channelId (HashData.map (upsert base ident data))
  else store

/-- Result of processing one image attachment on the live path: the
store after the event, the violating match (if any), and the
`db_updated` flag. -/
structure LiveResult where
  store : Store
  violation : Option Match
  inserted : Bool

/-- `f"{message.id}-{attachment.filename}"`. -/
def mkIdent (msgId : Int) (filename : String) : String :=
  toString msgId ++ "-" ++ filename

/-- The per-attachment core of v3's `on_message` (v4's is identical):
match, decide, and on UNIQUE probe with `find_existing_hash_entry_sync`
at threshold 0 before inserting a structured record carrying the current
author and timestamp. A violation never touches the store. -/
def processImageV3 (store : Store) (threshold : Nat) (scope mode : String)
    (durationDays : Int) (channelId : String) (userId msgId : Int)
    (filename : String) (fp : Fingerprint) (now : Int) : LiveResult :=
  let dupMatches := findDuplicatesV3 (some fp) store threshold scope channelId durationDays now
  match decideViolation dupMatches mode userId with
  | some m => ⟨store, some m, false⟩
  | none =>
    match findExisting (some fp) store 0 scope channelId with
    | some _ => ⟨store, none, false⟩
    | none =>
      let ident := mkIdent msgId filename
      let data := HashData.obj (some (HStr.valid fp)) (some userId) (some (TStamp.valid now))
      ⟨storePut store scope channelId none ident data, none, true⟩

/-- The per-attachment core of v1's `on_message`: same decision engine,
but the UNIQUE branch has no existence probe — it always inserts — and
the stored record carries no timestamp. -/
def processImageV1 (store : Store) (threshold : Nat) (scope mode : String)
    (channelId : String) (userId msgId : Int) (filename : String)
    (fp : Fingerprint) : LiveResult :=
  let dupMatches := findDuplicatesV1 (some fp) store threshold scope channelId
  match decideViolation dupMatches mode userId with
  | some m => ⟨store, some m, false⟩
  | none =>
    let ident := mkIdent msgId filename
    let data := HashData.obj (some (HStr.valid fp)) (some userId) none
    ⟨storePut store scope channelId none ident data, none, true⟩

/-- One image gathered during scan phase 1: message timestamp, message
id, author id, attachment filename. -/
structure ScanEntry where
  ts : Int
  msgId : Int
  userId : Int
  filename : String
deriving DecidableEq

/-- Stable insertion by timestamp, after earlier equal timestamps. -/
def insertEntry (e : ScanEntry) : List ScanEntry → List ScanEntry
  | [] => [e]
  | b :: t => if b.ts ≤ e.ts then b :: insertEntry e t else e :: b :: t

/-- Python `entries.sort(key=lambda x: x[0])`: stable ascending sort by
message timestamp. -/
def sortEntries (l : List ScanEntry) : List ScanEntry :=
  l.foldl (fun acc e => insertEntry e acc) []

/-- `existing_data.get('timestamp')` as read during scan reconciliation:
only a structured record yields the field. -/
def timestampOf : HashData → Option TStamp
  | HashData.obj _ _ t => t
  | _ => none

/-- `data_to_use.get('user_id')` as read by the scan action loop. -/
def userOf : HashData → Option Int
  | HashData.obj _ u _ => u
  | _ => none

/-- Per-entry violation decision of v3's scan action loop (`scan_history`
phase 2): strict always violates, owner_allowed violates when the
canonical author is unknown or differs; with a configured window the
violation is cancelled when the gap from the canonical record's
timestamp exceeds the window in whole days, or when that timestamp is
missing or unparseable. -/
def scanViolationV3 (mode : String) (durationDays : Int) (canonUser : Option Int)
    (canonTs : Option TStamp) (e : ScanEntry) : Bool :=
  let isV : Bool :=
    if mode = "strict" then true
    else if mode = "owner_allowed" then canonUser.isNone || !(canonUser == some e.userId)
    else false
  if isV = true ∧ durationDays > 0 then
    match canonTs with
    | some (TStamp.valid ct) => if (e.ts - ct).fdiv 86400 > durationDays then false else true
    | some TStamp.invalid => false
    | none => false
  else isV

/-- Per-entry violation decision of v2's scan action loop: as v3's, but
author and window gap are taken from the oldest *scanned* entry of the
group (the scanned author id is never `None`). -/
def scanViolationV2 (mode : String) (durationDays : Int) (oldestUser : Int)
    (oldestTs : Int) (e : ScanEntry) : Bool :=
  let isV : Bool :=
    if mode = "strict" then true
    else if mode = "owner_allowed" then !(oldestUser == e.userId)
    else false
  if isV = true ∧ durationDays > 0 then
    if (e.ts - oldestTs).fdiv 86400 > durationDays then false else true
  else isV

/-- Phase 2 of v3's `scan_history` for one hash-equality group: sort the
gathered entries by timestamp, probe the store with the threshold-0
existence check, decide between the oldest scanned entry and the stored
record (strictly older scanned timestamp, or a stored record with a
missing/unparseable timestamp, replaces the stored record), then flag
every non-canonical entry through `scanViolationV3` against the
canonical record's author and timestamp. Returns the updated store and
the `(entry, is_violation)` flags of the non-canonical entries. (An
unparseable canonical identifier prefix, which would raise in the
source, is modelled as skipping no entry.) -/
def scanGroupV3Core (store : Store) (scope channelId mode : String) (durationDays : Int)
    (fp : Fingerprint) : List ScanEntry → Store × List (ScanEntry × Bool)
  | [] => (store, [])
  | oldest :: rest =>
    let oldestId := mkIdent oldest.msgId oldest.filename
    let oldestData := HashData.obj (some (HStr.valid fp)) (some oldest.userId)
      (some (TStamp.valid oldest.ts))
    let choice :=
      match findExisting (some fp) store 0 scope channelId with
      | none => (true, oldestId, oldestData, (none : Option String))
      | some (exId, exData) =>
        match timestampOf exData with
        | some (TStamp.valid te) =>
          if oldest.ts < te then (true, oldestId, oldestData, some exId)
          else (false, exId, exData, some exId)
        | some TStamp.invalid => (true, oldestId, oldestData, some exId)
        | none => (true, oldestId, oldestData, some exId)
    let store1 :=
      if choice.1 then storePut store scope channelId choice.2.2.2 choice.2.1 choice.2.2.1
      else store
    let canonId := choice.2.1
    let canonUser := userOf choice.2.2.1
    let canonTs := timestampOf choice.2.2.1
    let flags := (oldest :: rest).filterMap (fun e =>
      if parseMsgId canonId = some e.msgId then none
      else some (e, scanViolationV3 mode durationDays canonUser canonTs e))
    (store1, flags)

def scanGroupV3 (store : Store) (scope channelId mode : String) (durationDays : Int)
    (fp : Fingerprint) (entries : List ScanEntry) : Store × List (ScanEntry × Bool) :=
  scanGroupV3Core store scope channelId mode durationDays fp (sortEntries entries)

/-- Phase 2 of v2's `scan_history` for one hash-equality group: as v3's,
except that a stored record with a missing or unparseable timestamp is
left untouched (`except: pass`), and the action loop skips by the oldest
scanned message id and flags through `scanViolationV2` against the
oldest scanned entry's author and timestamp. -/
def scanGroupV2Core (store : Store) (scope channelId mode : String) (durationDays : Int)
    (fp : Fingerprint) : List ScanEntry → Store × List (ScanEntry × Bool)
  | [] => (store, [])
  | oldest :: rest =>
    let oldestId := mkIdent oldest.msgId oldest.filename
    let oldestData := HashData.obj (some (HStr.valid fp)) (some oldest.userId)
      (some (TStamp.valid oldest.ts))
    let store1 :=
      match findExisting (some fp) store 0 scope channelId with
      | none => storePut store scope channelId none oldestId oldestData
      | some (exId, exData) =>
        match timestampOf exData with
        | some (TStamp.valid te) =>
          if oldest.ts < te then storePut store scope channelId (some exId) oldestId oldestData
          else store
        | _ => store
    let flags := (oldest :: rest).filterMap (fun e =>
      if e.msgId = oldest.msgId then none
      else some (e, scanViolationV2 mode durationDays oldest.userId oldest.ts e))
    (store1, flags)

def scanGroupV2 (store : Store) (scope channelId mode : String) (durationDays : Int)
    (fp : Fingerprint) (entries : List ScanEntry) : Store × List (ScanEntry × Bool) :=
  scanGroupV2Core store scope channelId mode durationDays fp (sortEntries entries)

/-! ## Helper lemmas -/

lemma mem_insertMatch {x m : Match} {l : List Match} :
    x ∈ insertMatch m l ↔ x = m ∨ x ∈ l := by
  induction l with
  | nil => simp [insertMatch]
  | cons b t ih =>
    rw [insertMatch]
    by_cases hb : b.distance ≤ m.distance
    · rw [if_pos hb]
      rw [List.mem_cons, ih, List.mem_cons]
      tauto
    · rw [if_neg hb]
      simp only [List.mem_cons]

lemma pairwise_insertMatch {m : Match} {l : List Match}
    (h : l.Pairwise (fun a b => a.distance ≤ b.distance)) :
    (insertMatch m l).Pairwise (fun a b => a.distance ≤ b.distance) := by
  induction l with
  | nil => simp [insertMatch]
  | cons b t ih =>
    rcases List.pairwise_cons.mp h with ⟨hb, ht⟩
    rw [insertMatch]
    by_cases hbm : b.distance ≤ m.distance
    · rw [if_pos hbm]
      refine List.pairwise_cons.mpr ⟨?_, ih ht⟩
      intro x hx
      rcases mem_insertMatch.mp hx with rfl | hx
      · exact hbm
      · exact hb x hx
    · rw [if_neg hbm]
      refine List.pairwise_cons.mpr ⟨?_, h⟩
      intro x hx
      rcases List.mem_cons.mp hx with rfl | hx
      · exact Nat.le_of_not_le hbm
      · exact Nat.le_trans (Nat.le_of_not_le hbm) (hb x hx)

lemma pairwise_sortMatches_aux (l acc : List Match)
    (h : acc.Pairwise (fun a b => a.distance ≤ b.distance)) :
    (l.foldl (fun a m => insertMatch m a) acc).Pairwise
      (fun a b => a.distance ≤ b.distance) := by
  induction l generalizing acc with
  | nil => simpa using h
  | cons m t ih => exact ih (insertMatch m acc) (pairwise_insertMatch h)

lemma pairwise_sortMatches (l : List Match) :
    (sortMatches l).Pairwise (fun a b => a.distance ≤ b.distance) :=
  pairwise_sortMatches_aux l [] (by simp)

lemma mem_insertEntry {x e : ScanEntry} {l : List ScanEntry} :
    x ∈ insertEntry e l ↔ x = e ∨ x ∈ l := by
  induction l with
  | nil => simp [insertEntry]
  | cons b t ih =>
    rw [insertEntry]
    by_cases hb : b.ts ≤ e.ts
    · rw [if_pos hb]
      rw [List.mem_cons, ih, List.mem_cons]
      tauto
    · rw [if_neg hb]
      simp only [List.mem_cons]

lemma pairwise_insertEntry {e : ScanEntry} {l : List ScanEntry}
    (h : l.Pairwise (fun a b => a.ts ≤ b.ts)) :
    (insertEntry e l).Pairwise (fun a b => a.ts ≤ b.ts) := by
  induction l with
  | nil => simp [insertEntry]
  | cons b t ih =>
    rcases List.pairwise_cons.mp h with ⟨hb, ht⟩
    rw [insertEntry]
    by_cases hbm : b.ts ≤ e.ts
    · rw [if_pos hbm]
      refine List.pairwise_cons.mpr ⟨?_, ih ht⟩
      intro x hx
      rcases mem_insertEntry.mp hx with rfl | hx
      · exact hbm
      · exact hb x hx
    · rw [if_neg hbm]
      refine List.pairwise_cons.mpr ⟨?_, h⟩
      intro x hx
      rcases List.mem_cons.mp hx with rfl | hx
      · exact le_of_not_le hbm
      · exact le_trans (le_of_not_le hbm) (hb x hx)

lemma mem_sortEntries_aux (l acc : List ScanEntry) {x : ScanEntry} :
    x ∈ l.foldl (fun a e => insertEntry e a) acc ↔ x ∈ acc ∨ x ∈ l := by
  induction l generalizing acc with
  | nil => simp
  | cons e t ih =>
    simp only [List.foldl_cons, ih, mem_insertEntry, List.mem_cons]
    tauto

lemma mem_sortEntries {x : ScanEntry} {l : List ScanEntry} :
    x ∈ sortEntries l ↔ x ∈ l := by
  simp [sortEntries, mem_sortEntries_aux]

lemma pairwise_sortEntries_aux (l acc : List ScanEntry)
    (h : acc.Pairwise (fun a b => a.ts ≤ b.ts)) :
    (l.foldl (fun a e => insertEntry e a) acc).Pairwise (fun a b => a.ts ≤ b.ts) := by
  induction l generalizing acc with
  | nil => simpa using h
  | cons e t ih => exact ih (insertEntry e acc) (pairwise_insertEntry h)

lemma pairwise_sortEntries (l : List ScanEntry) :
    (sortEntries l).Pairwise (fun a b => a.ts ≤ b.ts) :=
  pairwise_sortEntries_aux l [] (by simp)

lemma hamming_self (fp : Fingerprint) : hamming fp fp = some 0 := by
  induction fp with
  | nil => rfl
  | cons b t ih => simp [hamming, ih]

lemma lookupA_mapReplace_ne {l : Store} {k k2 : String} {v : HashData} (h : k ≠ k2) :
    lookupA (l.map (fun p => if p.1 = k then (k, v) else p)) k2 = lookupA l k2 := by
  induction l with
  | nil => rfl
  | cons a t ih =>
    unfold lookupA at *
    by_cases ha : a.1 = k
    · rw [List.map_cons, if_pos ha, List.find?_cons, List.find?_cons]
      have h1 : (decide (k = k2)) = false := decide_eq_false h
      have h2 : (decide (a.1 = k2)) = false := decide_eq_false (by rw [ha]; exact h)
      rw [h1, h2]
      exact ih
    · rw [List.map_cons, if_neg ha, List.find?_cons, List.find?_cons]
      cases hd : decide (a.1 = k2)
      · exact ih
      · rfl

lemma lookupA_upsert_ne {l : Store} {k k2 : String} {v : HashData} (h : k ≠ k2) :
    lookupA (upsert l k v) k2 = lookupA l k2 := by
  unfold upsert
  by_cases hmem : l.any (fun p => p.1 = k)
  · rw [if_pos hmem]
    exact lookupA_mapReplace_ne h
  · rw [if_neg hmem]
    unfold lookupA
    have hfind : List.find? (fun p => decide (p.1 = k2)) (l ++ [(k, v)])
        = List.find? (fun p => decide (p.1 = k2)) l := by
      rw [List.find?_append]
      have hk : List.find? (fun p => decide (p.1 = k2)) [(k, v)] = none := by
        simp [List.find?, h]
      rw [hk]
      cases List.find? (fun p => decide (p.1 = k2)) l <;> rfl
    rw [hfind]

lemma lookupA_popKey_self {l : Store} {k : String} :
    lookupA (popKey l k) k = none := by
  have hfind : List.find? (fun p => decide (p.1 = k)) (popKey l k) = none := by
    rw [List.find?_eq_none]
    intro x hx
    have hx2 := (List.mem_filter.mp hx).2
    simp only [decide_not] at hx2
    simp only [decide_eq_true_eq]
    exact of_decide_eq_false (Bool.not_eq_true' .. ▸ hx2)
  unfold lookupA
  rw [hfind]
  rfl

lemma mem_upsert_self {l : Store} {k : String} {v : HashData} :
    (k, v) ∈ upsert l k v := by
  unfold upsert
  by_cases hmem : l.any (fun p => p.1 = k)
  · rw [if_pos hmem]
    rcases List.any_eq_true.mp hmem with ⟨p, hp, hpk⟩
    have hpk2 : p.1 = k := of_decide_eq_true hpk
    refine List.mem_map.mpr ⟨p, hp, ?_⟩
    show (if p.1 = k then (k, v) else p) = (k, v)
    rw [if_pos hpk2]
  · rw [if_neg hmem]
    simp

/-! ## Claim theorems -/

/-- C7: the matcher's threshold boundary is inclusive — a candidate at
Hamming distance exactly `threshold` from the new fingerprint is
returned (with that distance), while a candidate at `threshold + 1` is
excluded; shown for the v4 and v1 variants of `find_duplicates_sync`. -/
theorem threshold_boundary_inclusive (fp h1 h2 : Fingerprint) (idn ch : String)
    (u : Option Int) (threshold : Nat) (now : Int)
    (hd1 : hamming fp h1 = some threshold)
    (hd2 : hamming fp h2 = some (threshold + 1)) :
    findDuplicatesV4 (some fp) [(idn, HashData.obj (some (HStr.valid h1)) u none)]
        threshold "server" ch 0 now
      = [⟨idn, threshold, parseMsgId idn, u⟩]
    ∧ findDuplicatesV4 (some fp) [(idn, HashData.obj (some (HStr.valid h2)) u none)]
        threshold "server" ch 0 now = []
    ∧ findDuplicatesV1 (some fp) [(idn, HashData.obj (some (HStr.valid h1)) u none)]
        threshold "server" ch
      = [⟨idn, threshold, parseMsgId idn, u⟩]
    ∧ findDuplicatesV1 (some fp) [(idn, HashData.obj (some (HStr.valid h2)) u none)]
        threshold "server" ch = [] := by
  refine ⟨?_, ?_, ?_, ?_⟩ <;>
    simp [findDuplicatesV3, findDuplicatesV1, selectPool, dupStepV3, dupStepV1,
      matchOfRecord, hd1, hd2, sortMatches, insertMatch, List.filterMap,
      Nat.not_succ_le_self]

/-- Witness for C7 at a concrete input: threshold 1, one stored hash at
distance 1 (kept) and one at distance 2 (dropped). -/
theorem threshold_boundary_inclusive_witness :
    hamming [true, false] [false, false] = some 1
    ∧ hamming [true, false] [false, true] = some 2
    ∧ (findDuplicatesV4 (some [true, false])
          [("5-a.png", HashData.obj (some (HStr.valid [false, false])) (some 3) none)]
          1 "server" "9" 0 0
        = [⟨"5-a.png", 1, parseMsgId "5-a.png", some 3⟩]
      ∧ findDuplicatesV4 (some [true, false])
          [("5-a.png", HashData.obj (some (HStr.valid [false, true])) (some 3) none)]
          1 "server" "9" 0 0 = []
      ∧ findDuplicatesV1 (some [true, false])
          [("5-a.png", HashData.obj (some (HStr.valid [false, false])) (some 3) none)]
          1 "server" "9"
        = [⟨"5-a.png", 1, parseMsgId "5-a.png", some 3⟩]
      ∧ findDuplicatesV1 (some [true, false])
          [("5-a.png", HashData.obj (some (HStr.valid [false, true])) (some 3) none)]
          1 "server" "9" = []) :=
  ⟨by decide, by decide,
    threshold_boundary_inclusive [true, false] [false, false] [false, true]
      "5-a.png" "9" (some 3) 1 0 (by decide) (by decide)⟩

/-- C6: retention expiry — a structured record timestamped exactly
`retention_days + 1` days in the past is excluded from matches when the
window is configured (`d > 0`) and included (given its distance is
within the threshold) when `d = 0`; shown for the v3 and v2 variants. -/
theorem retention_expiry_boundary (fp h : Fingerprint) (idn ch : String) (u : Option Int)
    (threshold dist : Nat) (d now : Int)
    (hd : hamming fp h = some dist) (hle : dist ≤ threshold) :
    (0 < d →
      findDuplicatesV3 (some fp)
          [(idn, HashData.obj (some (HStr.valid h)) u
              (some (TStamp.valid (now - (d + 1) * 86400))))]
          threshold "server" ch d now = []
      ∧ findDuplicatesV2 (some fp)
          [(idn, HashData.obj (some (HStr.valid h)) u
              (some (TStamp.valid (now - (d + 1) * 86400))))]
          threshold "server" ch d now = [])
    ∧ (d = 0 →
      findDuplicatesV3 (some fp)
          [(idn, HashData.obj (some (HStr.valid h)) u
              (some (TStamp.valid (now - (d + 1) * 86400))))]
          threshold "server" ch d now = [⟨idn, dist, parseMsgId idn, u⟩]
      ∧ findDuplicatesV2 (some fp)
          [(idn, HashData.obj (some (HStr.valid h)) u
              (some (TStamp.valid (now - (d + 1) * 86400))))]
          threshold "server" ch d now = [⟨idn, dist, parseMsgId idn, u⟩]) := by
  constructor
  · intro hdpos
    constructor
    · have hcut : now - (d + 1) * 86400 < now - d * 86400 := by nlinarith
      simp [findDuplicatesV3, selectPool, dupStepV3, hdpos, hcut, sortMatches,
        List.filterMap]
    · have hdays : (now - (now - (d + 1) * 86400)).fdiv 86400 = d + 1 := by
        have : now - (now - (d + 1) * 86400) = (d + 1) * 86400 := by ring
        rw [this, Int.mul_fdiv_cancel _ (by norm_num)]
      simp [findDuplicatesV2, selectPool, dupStepV2, hdpos, hdays, sortMatches,
        List.filterMap]
  · intro hd0
    subst hd0
    refine ⟨?_, ?_⟩ <;>
      simp [findDuplicatesV3, findDuplicatesV2, selectPool, dupStepV3, dupStepV2,
        matchOfRecord, hd, hle, sortMatches, insertMatch, List.filterMap]

/-- Witness for C6 at a concrete input: distance 0, threshold 5; the
same record is dropped with a 2-day window and kept with no window. -/
theorem retention_expiry_boundary_witness :
    hamming [true] [true] = some 0
    ∧ (0 : Nat) ≤ 5
    ∧ ((0 < (2 : Int) →
        findDuplicatesV3 (some [true])
            [("5-a.png", HashData.obj (some (HStr.valid [true])) (some 3)
                (some (TStamp.valid (1000000 - (2 + 1) * 86400))))]
            5 "server" "9" 2 1000000 = []
        ∧ findDuplicatesV2 (some [true])
            [("5-a.png", HashData.obj (some (HStr.valid [true])) (some 3)
                (some (TStamp.valid (1000000 - (2 + 1) * 86400))))]
            5 "server" "9" 2 1000000 = [])
      ∧ ((2 : Int) = 0 →
        findDuplicatesV3 (some [true])
            [("5-a.png", HashData.obj (some (HStr.valid [true])) (some 3)
                (some (TStamp.valid (1000000 - (2 + 1) * 86400))))]
            5 "server" "9" 2 1000000 = [⟨"5-a.png", 0, parseMsgId "5-a.png", some 3⟩]
        ∧ findDuplicatesV2 (some [true])
            [("5-a.png", HashData.obj (some (HStr.valid [true])) (some 3)
                (some (TStamp.valid (1000000 - (2 + 1) * 86400))))]
            5 "server" "9" 2 1000000 = [⟨"5-a.png", 0, parseMsgId "5-a.png", some 3⟩])) :=
  ⟨by decide, by decide,
    retention_expiry_boundary [true] [true] "5-a.png" "9" (some 3) 5 0 2 1000000
      (by decide) (by decide)⟩

/-- C5 counterexample: in v3 (one of the two variants this claim is
sourced from) a legacy bare-string record — which lacks `created_at` —
at distance 0 from the probe is *skipped* when a one-day retention
window is configured, and returned when no window is set, so the
exclusion is caused by the window. -/
theorem legacy_window_skip_v3_cex :
    findDuplicatesV3 (some [true]) [("5-a.png", HashData.str (HStr.valid [true]))]
        0 "server" "9" 1 0 = []
    ∧ findDuplicatesV3 (some [true]) [("5-a.png", HashData.str (HStr.valid [true]))]
        0 "server" "9" 0 0
      = [⟨"5-a.png", 0, parseMsgId "5-a.png", none⟩] :=
  ⟨rfl, rfl⟩

/-- C5 amended: with a retention window configured, a *structured*
record lacking a timestamp is still matched by v3/v4 and by v2, and a
*legacy bare-string* record is still matched by v2 — but v3/v4 skip
legacy bare-string records whenever a window is configured. -/
theorem window_timestampless_rules (fp h : Fingerprint) (idn ch : String)
    (u : Option Int) (threshold dist : Nat) (d now : Int)
    (hd : hamming fp h = some dist) (hle : dist ≤ threshold) (hdpos : 0 < d) :
    findDuplicatesV3 (some fp) [(idn, HashData.obj (some (HStr.valid h)) u none)]
        threshold "server" ch d now = [⟨idn, dist, parseMsgId idn, u⟩]
    ∧ findDuplicatesV2 (some fp) [(idn, HashData.obj (some (HStr.valid h)) u none)]
        threshold "server" ch d now = [⟨idn, dist, parseMsgId idn, u⟩]
    ∧ findDuplicatesV2 (some fp) [(idn, HashData.str (HStr.valid h))]
        threshold "server" ch d now = [⟨idn, dist, parseMsgId idn, none⟩]
    ∧ findDuplicatesV3 (some fp) [(idn, HashData.str (HStr.valid h))]
        threshold "server" ch d now = [] := by
  refine ⟨?_, ?_, ?_, ?_⟩ <;>
    simp [findDuplicatesV3, findDuplicatesV2, selectPool, dupStepV3, dupStepV2,
      matchOfRecord, hd, hle, hdpos, sortMatches, insertMatch, List.filterMap]

/-- Witness for the amended C5 at a concrete input: window of 1 day,
distance 0, threshold 0. -/
theorem window_timestampless_rules_witness :
    hamming [true] [true] = some 0 ∧ (0 : Nat) ≤ 0 ∧ (0 : Int) < 1
    ∧ (findDuplicatesV3 (some [true])
          [("5-a.png", HashData.obj (some (HStr.valid [true])) (some 3) none)]
          0 "server" "9" 1 0 = [⟨"5-a.png", 0, parseMsgId "5-a.png", some 3⟩]
      ∧ findDuplicatesV2 (some [true])
          [("5-a.png", HashData.obj (some (HStr.valid [true])) (some 3) none)]
          0 "server" "9" 1 0 = [⟨"5-a.png", 0, parseMsgId "5-a.png", some 3⟩]
      ∧ findDuplicatesV2 (some [true]) [("5-a.png", HashData.str (HStr.valid [true]))]
          0 "server" "9" 1 0 = [⟨"5-a.png", 0, parseMsgId "5-a.png", none⟩]
      ∧ findDuplicatesV3 (some [true]) [("5-a.png", HashData.str (HStr.valid [true]))]
          0 "server" "9" 1 0 = []) :=
  ⟨by decide, by decide, by decide,
    window_timestampless_rules [true] [true] "5-a.png" "9" (some 3) 0 0 1 0
      (by decide) (by decide) (by decide)⟩

/-- C8: scope isolation — under channel scope, inserting a record into
channel `a`'s partition does not change the matcher's result for any
lookup scoped to a different channel `b`; and for any scope string other
than server/channel, the v4 and v1 matchers return an empty list. -/
theorem scope_isolation_channel (fp : Option Fingerprint) (store : Store)
    (threshold : Nat) (a b idn : String) (data : HashData)
    (d now : Int) (hab : a ≠ b) :
    findDuplicatesV4 fp (storePut store "channel" a none idn data) threshold
        "channel" b d now
      = findDuplicatesV4 fp store threshold "channel" b d now
    ∧ (∀ scope ch, scope ≠ "server" → scope ≠ "channel" →
        findDuplicatesV4 fp store threshold scope ch d now = []
        ∧ findDuplicatesV1 fp store threshold scope ch = []) := by
  constructor
  · have hsel : selectPool (storePut store "channel" a none idn data) "channel" b
        = selectPool store "channel" b := by
      have hns : (("channel" : String) = "server") = False := by simp
      simp only [storePut, selectPool, hns, if_false, reduceIte]
      rw [lookupA_upsert_ne hab]
    cases fp with
    | none => rfl
    | some f =>
      show sortMatches _ = sortMatches _
      rw [hsel]
  · intro scope ch h1 h2
    have hsel : selectPool store scope ch = [] := by
      unfold selectPool
      rw [if_neg h1, if_neg h2]
    cases fp with
    | none => exact ⟨rfl, rfl⟩
    | some f =>
      constructor
      · show sortMatches _ = _
        rw [hsel]
        rfl
      · show sortMatches _ = _
        rw [hsel]
        rfl

/-- Witness for C8 at a concrete input: a record inserted under channel
"1" is invisible to a lookup scoped to channel "2". -/
theorem scope_isolation_channel_witness :
    ("1" : String) ≠ "2"
    ∧ (findDuplicatesV4 (some [true])
          (storePut [] "channel" "1" none "5-a.png" (HashData.str (HStr.valid [true])))
          5 "channel" "2" 0 0
        = findDuplicatesV4 (some [true]) [] 5 "channel" "2" 0 0
      ∧ (∀ scope ch, scope ≠ "server" → scope ≠ "channel" →
          findDuplicatesV4 (some [true]) [] 5 scope ch 0 0 = []
          ∧ findDuplicatesV1 (some [true]) [] 5 scope ch = [])) :=
  ⟨by decide,
    scope_isolation_channel (some [true]) [] 5 "1" "2" "5-a.png"
      (HashData.str (HStr.valid [true])) 0 0 (by decide)⟩

/-- C9: a VIOLATION outcome never mutates the fingerprint store — on the
v3/v4 and v1 live paths, whenever the decision yields a violating match
the resulting store is exactly the input store (insertion happens only
on the UNIQUE outcome). -/
theorem violation_leaves_store (store : Store) (threshold : Nat) (scope mode ch : String)
    (d : Int) (u msg : Int) (fn : String) (fp : Fingerprint) (now : Int) (m : Match) :
    ((processImageV3 store threshold scope mode d ch u msg fn fp now).violation = some m →
      (processImageV3 store threshold scope mode d ch u msg fn fp now).store = store)
    ∧ ((processImageV1 store threshold scope mode ch u msg fn fp).violation = some m →
      (processImageV1 store threshold scope mode ch u msg fn fp).store = store) := by
  constructor
  · intro hv
    unfold processImageV3 at hv ⊢
    cases hdec : decideViolation (findDuplicatesV3 (some fp) store threshold scope ch d now) mode u with
    | some m2 => simp [hdec]
    | none =>
      exfalso
      cases hpr : findExisting (some fp) store 0 scope ch with
      | some x => simp [hdec, hpr] at hv
      | none => simp [hdec, hpr] at hv
  · intro hv
    unfold processImageV1 at hv ⊢
    cases hdec : decideViolation (findDuplicatesV1 (some fp) store threshold scope ch) mode u with
    | some m2 => simp [hdec]
    | none =>
      exfalso
      simp [hdec] at hv

/-- Witness for C9 at a concrete input: a strict-mode violation leaves
the one-record store untouched on both paths. -/
theorem violation_leaves_store_witness :
    (processImageV3 [("5-a.png", HashData.str (HStr.valid [true]))] 0 "server" "strict"
        0 "9" 7 10 "b.png" [true] 50).store
      = [("5-a.png", HashData.str (HStr.valid [true]))]
    ∧ (processImageV1 [("5-a.png", HashData.str (HStr.valid [true]))] 0 "server" "strict"
        "9" 7 10 "b.png" [true]).store
      = [("5-a.png", HashData.str (HStr.valid [true]))] :=
  ⟨(violation_leaves_store [("5-a.png", HashData.str (HStr.valid [true]))] 0 "server"
      "strict" "9" 0 7 10 "b.png" [true] 50
      ⟨"5-a.png", 0, parseMsgId "5-a.png", none⟩).1 rfl,
   (violation_leaves_store [("5-a.png", HashData.str (HStr.valid [true]))] 0 "server"
      "strict" "9" 0 7 10 "b.png" [true] 50
      ⟨"5-a.png", 0, parseMsgId "5-a.png", none⟩).2 rfl⟩

lemma find?_split {α : Type} {p : α → Bool} {l : List α} {a : α}
    (h : l.find? p = some a) :
    ∃ l1 l2, l = l1 ++ a :: l2 ∧ ∀ x ∈ l1, ¬ p x := by
  induction l with
  | nil => simp at h
  | cons b t ih =>
    rw [List.find?_cons] at h
    cases hb : p b
    · rw [hb] at h
      rcases ih h with ⟨l1, l2, heq, hall⟩
      refine ⟨b :: l1, l2, by rw [heq]; rfl, ?_⟩
      intro x hx
      rcases List.mem_cons.mp hx with rfl | hx2
      · simp [hb]
      · exact hall x hx2
    · rw [hb] at h
      obtain rfl : b = a := by simpa using h
      exact ⟨[], t, rfl, by simp⟩

/-- C2: in owner_allowed mode with a non-empty match list, the decision
engine returns UNIQUE (no violation) exactly when every match's stored
author equals the current poster; otherwise the violating match is the
first match in order whose stored author is unknown or different — an
unknown author is never treated as same-author. -/
theorem owner_allowed_decision (ms : List Match) (u : Int) (hne : ms ≠ []) :
    (decideViolation ms "owner_allowed" u = none ↔ ∀ m ∈ ms, m.origUserId = some u)
    ∧ (∀ m, decideViolation ms "owner_allowed" u = some m →
        m.origUserId ≠ some u
        ∧ ∃ l1 l2, ms = l1 ++ m :: l2 ∧ ∀ x ∈ l1, x.origUserId = some u) := by
  obtain ⟨m0, t, rfl⟩ := List.exists_cons_of_ne_nil hne
  have hdv : decideViolation (m0 :: t) "owner_allowed" u
      = (m0 :: t).find? (fun mt => mt.origUserId.isNone || !(mt.origUserId == some u)) := by
    show (if ("owner_allowed" : String) = "strict" then some m0
        else if ("owner_allowed" : String) = "owner_allowed" then
          (m0 :: t).find? (fun mt => mt.origUserId.isNone || !(mt.origUserId == some u))
        else none)
      = (m0 :: t).find? (fun mt => mt.origUserId.isNone || !(mt.origUserId == some u))
    rw [if_neg (by decide : ¬("owner_allowed" : String) = "strict"), if_pos rfl]
  have hpred : ∀ mt : Match,
      (mt.origUserId.isNone || !(mt.origUserId == some u)) = true ↔ mt.origUserId ≠ some u := by
    intro mt
    cases h : mt.origUserId <;> simp [h]
  constructor
  · rw [hdv, List.find?_eq_none]
    constructor
    · intro hall m hm
      by_contra hneq
      exact hall m hm ((hpred m).mpr hneq)
    · intro hall m hm hp
      exact ((hpred m).mp hp) (hall m hm)
  · intro m hm
    rw [hdv] at hm
    have hfs := @List.find?_some Match
      (fun mt => mt.origUserId.isNone || !(mt.origUserId == some u)) m (m0 :: t) hm
    have hpm := (hpred m).mp hfs
    rcases find?_split hm with ⟨l1, l2, heq, hall⟩
    refine ⟨hpm, l1, l2, heq, ?_⟩
    intro x hx
    by_contra hne2
    exact hall x hx ((hpred x).mpr hne2)

/-- Witness for C2 at a concrete input: with matches authored by the
poster and by an unknown author, the unknown-author match violates. -/
theorem owner_allowed_decision_witness :
    ([⟨"5-a.png", 0, parseMsgId "5-a.png", some 5⟩,
      ⟨"7-b.png", 1, parseMsgId "7-b.png", none⟩] : List Match) ≠ []
    ∧ ((decideViolation [⟨"5-a.png", 0, parseMsgId "5-a.png", some 5⟩,
          ⟨"7-b.png", 1, parseMsgId "7-b.png", none⟩] "owner_allowed" 5 = none
        ↔ ∀ m ∈ ([⟨"5-a.png", 0, parseMsgId "5-a.png", some 5⟩,
            ⟨"7-b.png", 1, parseMsgId "7-b.png", none⟩] : List Match),
            m.origUserId = some 5)
      ∧ (∀ m, decideViolation [⟨"5-a.png", 0, parseMsgId "5-a.png", some 5⟩,
            ⟨"7-b.png", 1, parseMsgId "7-b.png", none⟩] "owner_allowed" 5 = some m →
          m.origUserId ≠ some 5
          ∧ ∃ l1 l2, ([⟨"5-a.png", 0, parseMsgId "5-a.png", some 5⟩,
              ⟨"7-b.png", 1, parseMsgId "7-b.png", none⟩] : List Match) = l1 ++ m :: l2
            ∧ ∀ x ∈ l1, x.origUserId = some 5)) :=
  ⟨by decide,
    owner_allowed_decision [⟨"5-a.png", 0, parseMsgId "5-a.png", some 5⟩,
      ⟨"7-b.png", 1, parseMsgId "7-b.png", none⟩] 5 (by decide)⟩

/-- C3: the v4 matcher's result is sorted ascending by Hamming distance,
and on any non-empty result strict mode reports the head — which is a
closest match of the whole result. -/
theorem strict_mode_closest (fp : Option Fingerprint) (store : Store) (threshold : Nat)
    (scope ch : String) (d now : Int) (u : Int) :
    (findDuplicatesV4 fp store threshold scope ch d now).Pairwise
      (fun a b => a.distance ≤ b.distance)
    ∧ (∀ m t, findDuplicatesV4 fp store threshold scope ch d now = m :: t →
        decideViolation (findDuplicatesV4 fp store threshold scope ch d now) "strict" u = some m
        ∧ ∀ x ∈ findDuplicatesV4 fp store threshold scope ch d now,
            m.distance ≤ x.distance) := by
  have hpw : (findDuplicatesV4 fp store threshold scope ch d now).Pairwise
      (fun a b => a.distance ≤ b.distance) := by
    cases fp with
    | none => simp [findDuplicatesV3]
    | some f => exact pairwise_sortMatches _
  refine ⟨hpw, ?_⟩
  intro m t hms
  constructor
  · rw [hms]
    show (if ("strict" : String) = "strict" then some m
        else if ("strict" : String) = "owner_allowed" then
          (m :: t).find? (fun mt => mt.origUserId.isNone || !(mt.origUserId == some u))
        else none) = some m
    rw [if_pos rfl]
  · intro x hx
    rw [hms] at hpw hx
    rcases List.pairwise_cons.mp hpw with ⟨hm, _⟩
    rcases List.mem_cons.mp hx with rfl | hx2
    · exact le_refl _
    · exact hm x hx2

/-- Witness for C3 at a concrete input: two candidates at distances 2
and 0; the result is sorted ascending and strict mode reports the
distance-0 head. -/
theorem strict_mode_closest_witness :
    findDuplicatesV4 (some [true, true])
        [("7-b.png", HashData.obj (some (HStr.valid [false, false])) (some 2) none),
         ("5-a.png", HashData.obj (some (HStr.valid [true, true])) (some 3) none)]
        5 "server" "9" 0 0
      = [⟨"5-a.png", 0, parseMsgId "5-a.png", some 3⟩,
         ⟨"7-b.png", 2, parseMsgId "7-b.png", some 2⟩]
    ∧ (decideViolation
          (findDuplicatesV4 (some [true, true])
            [("7-b.png", HashData.obj (some (HStr.valid [false, false])) (some 2) none),
             ("5-a.png", HashData.obj (some (HStr.valid [true, true])) (some 3) none)]
            5 "server" "9" 0 0) "strict" 1
        = some ⟨"5-a.png", 0, parseMsgId "5-a.png", some 3⟩
      ∧ ∀ x ∈ findDuplicatesV4 (some [true, true])
            [("7-b.png", HashData.obj (some (HStr.valid [false, false])) (some 2) none),
             ("5-a.png", HashData.obj (some (HStr.valid [true, true])) (some 3) none)]
            5 "server" "9" 0 0,
          (⟨"5-a.png", 0, parseMsgId "5-a.png", some 3⟩ : Match).distance ≤ x.distance) :=
  ⟨rfl,
    (strict_mode_closest (some [true, true])
      [("7-b.png", HashData.obj (some (HStr.valid [false, false])) (some 2) none),
       ("5-a.png", HashData.obj (some (HStr.valid [true, true])) (some 3) none)]
      5 "server" "9" 0 0 1).2
      ⟨"5-a.png", 0, parseMsgId "5-a.png", some 3⟩
      [⟨"7-b.png", 2, parseMsgId "7-b.png", some 2⟩] rfl⟩

lemma countP_keyEq_of_nodup {l : Store} {k : String}
    (hnodup : (l.map Prod.fst).Nodup) (hmem : k ∈ l.map Prod.fst) :
    l.countP (fun e => e.1 = k) = 1 := by
  induction l with
  | nil => simp at hmem
  | cons a t ih =>
    rw [List.map_cons, List.nodup_cons] at hnodup
    rw [List.map_cons, List.mem_cons] at hmem
    rw [List.countP_cons]
    rcases hmem with h1 | h1
    · have hz : t.countP (fun e => decide (e.1 = k)) = 0 := by
        rw [List.countP_eq_zero]
        intro e he hp
        apply hnodup.1
        rw [← h1, ← of_decide_eq_true hp]
        exact List.mem_map_of_mem Prod.fst he
      rw [hz]
      simp [h1]
    · by_cases hak : a.1 = k
      · exact absurd (hak ▸ h1) hnodup.1
      · simp [hak, ih hnodup.2 h1]

lemma countP_upsert_of_zero {l : Store} {k : String} {v : HashData}
    {p : String × HashData → Bool}
    (hnodup : (l.map Prod.fst).Nodup) (hz : l.countP p = 0) (hp : p (k, v) = true) :
    (upsert l k v).countP p = 1 := by
  unfold upsert
  by_cases hmem : l.any (fun q => q.1 = k)
  · rw [if_pos hmem]
    rw [List.countP_map]
    have hke : k ∈ l.map Prod.fst := by
      rcases List.any_eq_true.mp hmem with ⟨q, hq, hqk⟩
      exact (of_decide_eq_true hqk) ▸ List.mem_map_of_mem Prod.fst hq
    have hcong : ∀ e ∈ l,
        ((p ∘ fun q => if q.1 = k then (k, v) else q) e = true
          ↔ (fun e2 : String × HashData => decide (e2.1 = k)) e = true) := by
      intro e he
      by_cases hk2 : e.1 = k
      · simp [Function.comp, hk2, hp]
      · have hpe := List.countP_eq_zero.mp hz e he
        simp only [Function.comp_apply, if_neg hk2, decide_eq_true_eq]
        constructor
        · intro hc
          exact absurd hc hpe
        · intro hc
          exact absurd hc hk2
    rw [List.countP_congr hcong]
    exact countP_keyEq_of_nodup hnodup hke
  · rw [if_neg hmem]
    rw [List.countP_append, hz]
    simp [List.countP_cons, hp]

/-- C4 counterexample: in v1 (`discord_duplicate_bot.py`, the second
code source of the claim) there is no exact-match existence probe before
insertion — re-ingesting the same image by the same author in
owner_allowed mode is accepted as UNIQUE again and inserts a second
record, so the store ends with two records for the fingerprint instead
of one. -/
theorem live_reingest_v1_duplicates_cex :
    (processImageV1 [] 5 "server" "owner_allowed" "9" 1 10 "a.png" [true]).violation = none
    ∧ (processImageV1 [] 5 "server" "owner_allowed" "9" 1 10 "a.png" [true]).inserted = true
    ∧ (processImageV1
        (processImageV1 [] 5 "server" "owner_allowed" "9" 1 10 "a.png" [true]).store
        5 "server" "owner_allowed" "9" 1 11 "a.png" [true]).violation = none
    ∧ ((processImageV1
        (processImageV1 [] 5 "server" "owner_allowed" "9" 1 10 "a.png" [true]).store
        5 "server" "owner_allowed" "9" 1 11 "a.png" [true]).store).countP
        (existingPred [true] 0) = 2 :=
  ⟨rfl, rfl, rfl, rfl⟩

/-- C4 amended (holds for v2/v3/v4, which do run the threshold-0
existence probe): on the v3/v4 live path in server scope, once an image
is accepted as UNIQUE and inserted, the store holds exactly one record
at distance 0 from its fingerprint, and processing any later image with
the same fingerprint — any author, mode, window, or channel — leaves the
store unchanged. -/
theorem live_reingest_v3_idempotent (store : Store) (threshold : Nat) (mode : String)
    (d : Int) (ch : String) (u msg1 : Int) (f1 : String) (fp : Fingerprint) (now1 : Int)
    (mode2 : String) (d2 : Int) (ch2 : String) (u2 msg2 : Int) (f2 : String) (now2 : Int)
    (hnodup : (store.map Prod.fst).Nodup)
    (hins : (processImageV3 store threshold "server" mode d ch u msg1 f1 fp now1).inserted
      = true) :
    (processImageV3 store threshold "server" mode d ch u msg1 f1 fp now1).store.countP
        (existingPred fp 0) = 1
    ∧ (processImageV3
          (processImageV3 store threshold "server" mode d ch u msg1 f1 fp now1).store
          threshold "server" mode2 d2 ch2 u2 msg2 f2 fp now2).store
      = (processImageV3 store threshold "server" mode d ch u msg1 f1 fp now1).store := by
  cases hdec : decideViolation (findDuplicatesV3 (some fp) store threshold "server" ch d now1)
      mode u with
  | some m => simp [processImageV3, hdec] at hins
  | none =>
  cases hpr : findExisting (some fp) store 0 "server" ch with
  | some x => simp [processImageV3, hdec, hpr] at hins
  | none =>
    have hstore : (processImageV3 store threshold "server" mode d ch u msg1 f1 fp now1).store
        = upsert store (mkIdent msg1 f1)
            (HashData.obj (some (HStr.valid fp)) (some u) (some (TStamp.valid now1))) := by
      simp [processImageV3, hdec, hpr, storePut]
    have hfind : store.find? (existingPred fp 0) = none := by
      have := hpr
      unfold findExisting selectPool at this
      rw [if_pos rfl] at this
      exact this
    have hz : store.countP (existingPred fp 0) = 0 :=
      List.countP_eq_zero.mpr (List.find?_eq_none.mp hfind)
    have hpnew : existingPred fp 0
        (mkIdent msg1 f1, HashData.obj (some (HStr.valid fp)) (some u)
          (some (TStamp.valid now1))) = true := by
      simp [existingPred, hashStrOfData, hamming_self]
    have hone : (processImageV3 store threshold "server" mode d ch u msg1 f1 fp now1).store.countP
        (existingPred fp 0) = 1 := by
      rw [hstore]
      exact countP_upsert_of_zero hnodup hz hpnew
    have key : ∀ s : Store, s.countP (existingPred fp 0) = 1 →
        (processImageV3 s threshold "server" mode2 d2 ch2 u2 msg2 f2 fp now2).store = s := by
      intro s hs
      obtain ⟨x, hx, hpx⟩ := List.countP_pos_iff.mp
        (show 0 < s.countP (existingPred fp 0) by rw [hs]; exact Nat.zero_lt_one)
      cases hdec2 : decideViolation (findDuplicatesV3 (some fp) s threshold "server" ch2 d2 now2)
          mode2 u2 with
      | some m2 => simp [processImageV3, hdec2]
      | none =>
        cases hpr2 : findExisting (some fp) s 0 "server" ch2 with
        | some y => simp [processImageV3, hdec2, hpr2]
        | none =>
          exfalso
          have hfind2 : s.find? (existingPred fp 0) = none := by
            have := hpr2
            unfold findExisting selectPool at this
            rw [if_pos rfl] at this
            exact this
          exact (List.find?_eq_none.mp hfind2) x hx hpx
    exact ⟨hone, key _ hone⟩

/-- Witness for the amended C4 at a concrete input: first ingestion into
an empty store, second ingestion of the same fingerprint changes
nothing. -/
theorem live_reingest_v3_idempotent_witness :
    (([] : Store).map Prod.fst).Nodup
    ∧ (processImageV3 [] 5 "server" "owner_allowed" 0 "9" 1 10 "a.png" [true] 100).inserted
      = true
    ∧ ((processImageV3 [] 5 "server" "owner_allowed" 0 "9" 1 10 "a.png" [true] 100).store.countP
          (existingPred [true] 0) = 1
      ∧ (processImageV3
            (processImageV3 [] 5 "server" "owner_allowed" 0 "9" 1 10 "a.png" [true] 100).store
            5 "server" "owner_allowed" 0 "9" 1 11 "a.png" [true] 200).store
        = (processImageV3 [] 5 "server" "owner_allowed" 0 "9" 1 10 "a.png" [true] 100).store) :=
  ⟨List.nodup_nil, rfl,
    live_reingest_v3_idempotent [] 5 "owner_allowed" 0 "9" 1 10 "a.png" [true] 100
      "owner_allowed" 0 "9" 1 11 "a.png" 200 List.nodup_nil rfl⟩

/-- C10 counterexample: in v2's scan action loop the window gap is
measured from the *oldest scanned* entry, not from the canonical
(pre-existing, older) store record. Here the store record (timestamp 0)
stays canonical after reconciliation, the duplicate entry lies 10 whole
days (> 1-day window) after it, yet v2 still flags the entry for
actions because it lies less than a day after the oldest scanned entry. -/
theorem scan_window_v2_oldest_gap_cex :
    (scanGroupV2
        [("100-a.png", HashData.obj (some (HStr.valid [true])) (some 7)
          (some (TStamp.valid 0)))]
        "server" "9" "strict" 1 [true]
        [⟨864000, 5, 8, "b.png"⟩, ⟨907200, 6, 9, "c.png"⟩]).1
      = [("100-a.png", HashData.obj (some (HStr.valid [true])) (some 7)
          (some (TStamp.valid 0)))]
    ∧ (scanGroupV2
        [("100-a.png", HashData.obj (some (HStr.valid [true])) (some 7)
          (some (TStamp.valid 0)))]
        "server" "9" "strict" 1 [true]
        [⟨864000, 5, 8, "b.png"⟩, ⟨907200, 6, 9, "c.png"⟩]).2
      = [(⟨907200, 6, 9, "c.png"⟩, true)]
    ∧ ((907200 : Int) - 0).fdiv 86400 > 1 :=
  ⟨rfl, rfl, by decide⟩

/-- C10 amended: with a window configured (`dur > 0`), v3's scan action
decision exempts an entry whenever its timestamp is more than `dur`
whole days after the *canonical record's* timestamp, and exempts every
entry when the canonical timestamp is missing or unparseable; v2's
decision instead measures the gap from the *oldest scanned* entry's
timestamp. -/
theorem scan_window_gap_rules (mode : String) (dur : Int) (cu : Option Int)
    (ct : Int) (e : ScanEntry) (ou : Int) (ots : Int) (hdur : 0 < dur) :
    ((e.ts - ct).fdiv 86400 > dur →
      scanViolationV3 mode dur cu (some (TStamp.valid ct)) e = false)
    ∧ scanViolationV3 mode dur cu none e = false
    ∧ scanViolationV3 mode dur cu (some TStamp.invalid) e = false
    ∧ ((e.ts - ots).fdiv 86400 > dur → scanViolationV2 mode dur ou ots e = false) := by
  unfold scanViolationV3 scanViolationV2
  refine ⟨fun hgap => ?_, ?_, ?_, fun hgap => ?_⟩
  · cases hb : (if mode = "strict" then true
        else if mode = "owner_allowed" then cu.isNone || !(cu == some e.userId) else false)
    · simp
    · rw [if_pos ⟨rfl, hdur⟩]
      simp [hgap]
  · cases hb : (if mode = "strict" then true
        else if mode = "owner_allowed" then cu.isNone || !(cu == some e.userId) else false)
    · simp
    · rw [if_pos ⟨rfl, hdur⟩]
  · cases hb : (if mode = "strict" then true
        else if mode = "owner_allowed" then cu.isNone || !(cu == some e.userId) else false)
    · simp
    · rw [if_pos ⟨rfl, hdur⟩]
  · cases hb : (if mode = "strict" then true
        else if mode = "owner_allowed" then !(ou == e.userId) else false)
    · simp
    · rw [if_pos ⟨rfl, hdur⟩]
      simp [hgap]

/-- Witness for the amended C10 at a concrete input: strict mode, 1-day
window, 10-day gaps. -/
theorem scan_window_gap_rules_witness :
    (0 : Int) < 1
    ∧ ((((⟨907200, 6, 9, "c.png"⟩ : ScanEntry).ts - (0 : Int)).fdiv 86400 > 1 →
        scanViolationV3 "strict" 1 (some 7) (some (TStamp.valid 0))
          ⟨907200, 6, 9, "c.png"⟩ = false)
      ∧ scanViolationV3 "strict" 1 (some 7) none ⟨907200, 6, 9, "c.png"⟩ = false
      ∧ scanViolationV3 "strict" 1 (some 7) (some TStamp.invalid)
          ⟨907200, 6, 9, "c.png"⟩ = false
      ∧ ((((⟨907200, 6, 9, "c.png"⟩ : ScanEntry).ts - (0 : Int)).fdiv 86400 > 1 →
        scanViolationV2 "strict" 1 8 0 ⟨907200, 6, 9, "c.png"⟩ = false))) :=
  ⟨by decide,
    scan_window_gap_rules "strict" 1 (some 7) 0 ⟨907200, 6, 9, "c.png"⟩ 8 0 (by decide)⟩

lemma countP_one_unique {α : Type} {p : α → Bool} {l : List α} {x : α}
    (h1 : l.countP p = 1) (hx : x ∈ l) (hpx : p x = true) :
    ∀ y ∈ l, p y = true → y = x := by
  rw [List.countP_eq_length_filter] at h1
  obtain ⟨z, hz⟩ := List.length_eq_one.mp h1
  have hxz : x = z := by
    have hh := List.mem_filter.mpr ⟨hx, hpx⟩
    rw [hz] at hh
    simpa using hh
  intro y hy hpy
  have hh := List.mem_filter.mpr ⟨hy, hpy⟩
  rw [hz] at hh
  simp at hh
  rw [hh, hxz]

lemma countP_upsert_of_one {l : Store} {k : String} {v : HashData}
    {p : String × HashData → Bool}
    (hnodup : (l.map Prod.fst).Nodup) (hone : l.countP p = 1)
    (hx : ∃ d, (k, d) ∈ l ∧ p (k, d) = true) (hp : p (k, v) = true) :
    (upsert l k v).countP p = 1 := by
  obtain ⟨dd, hmem, hpd⟩ := hx
  have hmemk : k ∈ l.map Prod.fst := List.mem_map_of_mem Prod.fst hmem
  have huniq := countP_one_unique hone hmem hpd
  unfold upsert
  rw [if_pos (List.any_eq_true.mpr ⟨(k, dd), hmem, by simp⟩)]
  rw [List.countP_map]
  have hcong : ∀ e ∈ l,
      ((p ∘ fun q => if q.1 = k then (k, v) else q) e = true
        ↔ (fun e2 : String × HashData => decide (e2.1 = k)) e = true) := by
    intro e he
    by_cases hk2 : e.1 = k
    · simp [Function.comp, hk2, hp]
    · have hpe : ¬ p e = true := by
        intro hc
        exact hk2 (by rw [huniq e he hc])
      simp only [Function.comp_apply, if_neg hk2, decide_eq_true_eq]
      constructor
      · intro hc
        exact absurd hc hpe
      · intro hc
        exact absurd hc hk2
  rw [List.countP_congr hcong]
  exact countP_keyEq_of_nodup hnodup hmemk

/-- C1: oldest-wins reconciliation of one scan group (v3 `scan_history`,
server scope), for a group whose threshold-0 probe finds a stored record
with a parseable timestamp `te`, assuming well-formed keys (no duplicate
keys, exactly one record at distance 0 from the group hash, and the
oldest entry's identifier either equals the stored key or is fresh):
the head of the sorted group is chronologically oldest; if it is
strictly older than `te` the stored key is removed and a record with the
scanned entry's identifier, author and timestamp is inserted; otherwise
the store is untouched; and in both cases the partition ends with
exactly one record for that fingerprint. -/
theorem scan_reconcile_oldest_wins
    (store : Store) (ch mode : String) (dur : Int) (fp : Fingerprint)
    (entries rest : List ScanEntry) (oldest : ScanEntry)
    (exId : String) (exData : HashData) (te : Int)
    (hsort : sortEntries entries = oldest :: rest)
    (hprobe : findExisting (some fp) store 0 "server" ch = some (exId, exData))
    (hts : timestampOf exData = some (TStamp.valid te))
    (hnodup : (store.map Prod.fst).Nodup)
    (hone : store.countP (existingPred fp 0) = 1)
    (hfresh : mkIdent oldest.msgId oldest.filename = exId
      ∨ mkIdent oldest.msgId oldest.filename ∉ store.map Prod.fst) :
    (∀ e ∈ entries, oldest.ts ≤ e.ts)
    ∧ (oldest.ts < te →
        (scanGroupV3 store "server" ch mode dur fp entries).1
          = upsert
              (if exId ≠ mkIdent oldest.msgId oldest.filename then popKey store exId
                else store)
              (mkIdent oldest.msgId oldest.filename)
              (HashData.obj (some (HStr.valid fp)) (some oldest.userId)
                (some (TStamp.valid oldest.ts)))
        ∧ (mkIdent oldest.msgId oldest.filename,
            HashData.obj (some (HStr.valid fp)) (some oldest.userId)
              (some (TStamp.valid oldest.ts)))
            ∈ (scanGroupV3 store "server" ch mode dur fp entries).1
        ∧ (exId ≠ mkIdent oldest.msgId oldest.filename →
            lookupA (scanGroupV3 store "server" ch mode dur fp entries).1 exId = none))
    ∧ (¬ oldest.ts < te →
        (scanGroupV3 store "server" ch mode dur fp entries).1 = store
        ∧ (exId, exData) ∈ store)
    ∧ (scanGroupV3 store "server" ch mode dur fp entries).1.countP (existingPred fp 0)
      = 1 := by
  have hfind : store.find? (existingPred fp 0) = some (exId, exData) := by
    have hh := hprobe
    unfold findExisting selectPool at hh
    rw [if_pos rfl] at hh
    exact hh
  have hmemEx : (exId, exData) ∈ store := List.mem_of_find?_eq_some hfind
  have hpEx : existingPred fp 0 (exId, exData) = true := List.find?_some hfind
  have hpNew : existingPred fp 0 (mkIdent oldest.msgId oldest.filename,
      HashData.obj (some (HStr.valid fp)) (some oldest.userId)
        (some (TStamp.valid oldest.ts))) = true := by
    simp [existingPred, hashStrOfData, hamming_self]
  have hcore : scanGroupV3 store "server" ch mode dur fp entries
      = scanGroupV3Core store "server" ch mode dur fp (oldest :: rest) := by
    unfold scanGroupV3
    rw [hsort]
  have hstore1 : (scanGroupV3 store "server" ch mode dur fp entries).1
      = if oldest.ts < te
        then storePut store "server" ch (some exId)
          (mkIdent oldest.msgId oldest.filename)
          (HashData.obj (some (HStr.valid fp)) (some oldest.userId)
            (some (TStamp.valid oldest.ts)))
        else store := by
    rw [hcore]
    simp only [scanGroupV3Core, hprobe, hts]
    by_cases hlt : oldest.ts < te
    · simp [hlt]
    · simp [hlt]
  have hsput : storePut store "server" ch (some exId)
        (mkIdent oldest.msgId oldest.filename)
        (HashData.obj (some (HStr.valid fp)) (some oldest.userId)
          (some (TStamp.valid oldest.ts)))
      = upsert
          (if exId ≠ mkIdent oldest.msgId oldest.filename then popKey store exId else store)
          (mkIdent oldest.msgId oldest.filename)
          (HashData.obj (some (HStr.valid fp)) (some oldest.userId)
            (some (TStamp.valid oldest.ts))) := by
    simp [storePut]
  refine ⟨?_, ?_, ?_, ?_⟩
  · intro e he
    have hpw := pairwise_sortEntries entries
    rw [hsort] at hpw
    have hmem : e ∈ oldest :: rest := by
      rw [← hsort]
      exact mem_sortEntries.mpr he
    rcases List.mem_cons.mp hmem with rfl | hr
    · exact le_refl _
    · exact (List.pairwise_cons.mp hpw).1 e hr
  · intro hlt
    have hres : (scanGroupV3 store "server" ch mode dur fp entries).1
        = upsert
            (if exId ≠ mkIdent oldest.msgId oldest.filename then popKey store exId else store)
            (mkIdent oldest.msgId oldest.filename)
            (HashData.obj (some (HStr.valid fp)) (some oldest.userId)
              (some (TStamp.valid oldest.ts))) := by
      rw [hstore1, if_pos hlt, hsput]
    refine ⟨hres, ?_, ?_⟩
    · rw [hres]
      exact mem_upsert_self
    · intro hne
      rw [hres, if_pos hne, lookupA_upsert_ne (Ne.symm hne)]
      exact lookupA_popKey_self
  · intro hlt
    exact ⟨by rw [hstore1, if_neg hlt], hmemEx⟩
  · by_cases hlt : oldest.ts < te
    · rw [hstore1, if_pos hlt, hsput]
      by_cases heq : exId = mkIdent oldest.msgId oldest.filename
      · rw [if_neg (by simp [heq])]
        apply countP_upsert_of_one hnodup hone ?_ hpNew
        exact ⟨exData, heq ▸ hmemEx, heq ▸ hpEx⟩
      · rw [if_pos heq]
        have hnodup2 : ((popKey store exId).map Prod.fst).Nodup :=
          List.Nodup.sublist ((List.filter_sublist store).map Prod.fst) hnodup
        have hz : (popKey store exId).countP (existingPred fp 0) = 0 := by
          unfold popKey
          rw [List.countP_filter, List.countP_eq_zero]
          intro a ha hcontra
          rw [Bool.and_eq_true] at hcontra
          have ha2 := countP_one_unique hone hmemEx hpEx a ha hcontra.1
          rw [ha2] at hcontra
          simp at hcontra
        exact countP_upsert_of_zero hnodup2 hz hpNew
    · rw [hstore1, if_neg hlt]
      exact hone

/-- Witness for C1 at a concrete input: the stored record (timestamp 50)
is strictly newer than the oldest scanned entry (timestamp 40), so the
stored key is replaced by the scanned entry's record. -/
theorem scan_reconcile_oldest_wins_witness :
    sortEntries [⟨60, 6, 9, "c.png"⟩, ⟨40, 5, 8, "b.png"⟩]
      = (⟨40, 5, 8, "b.png"⟩ : ScanEntry) :: [⟨60, 6, 9, "c.png"⟩]
    ∧ findExisting (some [true])
        [("100-a.png", HashData.obj (some (HStr.valid [true])) (some 7)
          (some (TStamp.valid 50)))] 0 "server" "9"
      = some ("100-a.png",
          HashData.obj (some (HStr.valid [true])) (some 7) (some (TStamp.valid 50)))
    ∧ ((∀ e ∈ [(⟨60, 6, 9, "c.png"⟩ : ScanEntry), ⟨40, 5, 8, "b.png"⟩],
          (⟨40, 5, 8, "b.png"⟩ : ScanEntry).ts ≤ e.ts)
      ∧ ((⟨40, 5, 8, "b.png"⟩ : ScanEntry).ts < 50 →
          (scanGroupV3
              [("100-a.png", HashData.obj (some (HStr.valid [true])) (some 7)
                (some (TStamp.valid 50)))]
              "server" "9" "strict" 0 [true]
              [⟨60, 6, 9, "c.png"⟩, ⟨40, 5, 8, "b.png"⟩]).1
            = upsert
                (if "100-a.png" ≠ mkIdent 5 "b.png" then
                  popKey
                    [("100-a.png", HashData.obj (some (HStr.valid [true])) (some 7)
                      (some (TStamp.valid 50)))] "100-a.png"
                  else
                  [("100-a.png", HashData.obj (some (HStr.valid [true])) (some 7)
                    (some (TStamp.valid 50)))])
                (mkIdent 5 "b.png")
                (HashData.obj (some (HStr.valid [true])) (some 8) (some (TStamp.valid 40)))
          ∧ (mkIdent 5 "b.png",
              HashData.obj (some (HStr.valid [true])) (some 8) (some (TStamp.valid 40)))
              ∈ (scanGroupV3
                  [("100-a.png", HashData.obj (some (HStr.valid [true])) (some 7)
                    (some (TStamp.valid 50)))]
                  "server" "9" "strict" 0 [true]
                  [⟨60, 6, 9, "c.png"⟩, ⟨40, 5, 8, "b.png"⟩]).1
          ∧ ("100-a.png" ≠ mkIdent 5 "b.png" →
              lookupA
                (scanGroupV3
                  [("100-a.png", HashData.obj (some (HStr.valid [true])) (some 7)
                    (some (TStamp.valid 50)))]
                  "server" "9" "strict" 0 [true]
                  [⟨60, 6, 9, "c.png"⟩, ⟨40, 5, 8, "b.png"⟩]).1 "100-a.png" = none))
      ∧ (¬ (⟨40, 5, 8, "b.png"⟩ : ScanEntry).ts < 50 →
          (scanGroupV3
              [("100-a.png", HashData.obj (some (HStr.valid [true])) (some 7)
                (some (TStamp.valid 50)))]
              "server" "9" "strict" 0 [true]
              [⟨60, 6, 9, "c.png"⟩, ⟨40, 5, 8, "b.png"⟩]).1
            = [("100-a.png", HashData.obj (some (HStr.valid [true])) (some 7)
                (some (TStamp.valid 50)))]
          ∧ ("100-a.png",
              HashData.obj (some (HStr.valid [true])) (some 7) (some (TStamp.valid 50)))
              ∈ [("100-a.png", HashData.obj (some (HStr.valid [true])) (some 7)
                (some (TStamp.valid 50)))])
      ∧ (scanGroupV3
            [("100-a.png", HashData.obj (some (HStr.valid [true])) (some 7)
              (some (TStamp.valid 50)))]
            "server" "9" "strict" 0 [true]
            [⟨60, 6, 9, "c.png"⟩, ⟨40, 5, 8, "b.png"⟩]).1.countP
          (existingPred [true] 0) = 1) :=
  ⟨rfl, rfl,
    scan_reconcile_oldest_wins
      [("100-a.png", HashData.obj (some (HStr.valid [true])) (some 7)
        (some (TStamp.valid 50)))]
      "9" "strict" 0 [true]
      [⟨60, 6, 9, "c.png"⟩, ⟨40, 5, 8, "b.png"⟩] [⟨60, 6, 9, "c.png"⟩]
      ⟨40, 5, 8, "b.png"⟩ "100-a.png"
      (HashData.obj (some (HStr.valid [true])) (some 7) (some (TStamp.valid 50))) 50
      rfl rfl rfl (by decide) rfl (Or.inr (by decide))⟩

end DupDetect
